import Mathlib

/-!
Shallow embedding of the retrieval layer of the mini-maxi repository:
the RAG gateway (`RAGManager.retrieve`), its circuit breaker, its result
cache, and the two search strategies (`PgIlikeDriver.search`,
`VectorDbDriver.search`).

Modelling conventions, faithful to the TypeScript source:
- timestamps (milliseconds from `Date.now()`) are `Nat`; each operation
  receives the current instant `now` as an explicit argument;
- JavaScript numbers occurring in confidences and distances are `Rat`;
- the backing store and the embedding service are outside the repository,
  so their responses are oracle arguments: a value of
  `Except DbError _` where `Except.error` stands for a rejected promise
  (a thrown exception) and `Except.ok` for a resolved one;
- a function that can throw returns `Except DbError _`; a `try/catch`
  in the source becomes a `match` on the oracle argument;
- the `hints` record participates only through `JSON.stringify(hints)`
  inside the cache key, so it is modelled by its serialized string;
- the snippet `metadata` bag is opaque key/value data never read by the
  gateway; it is not carried in the model.
-/

set_option linter.unusedVariables false

namespace MiniMaxi

/-- Errors thrown by the backing store / embedding client, opaque to the
gateway; carried as a message string. -/
abbrev DbError := String

/-- `RAGSource` from the source: enumerated origin of a snippet. -/
inductive RAGSource
  | vectorDB
  | webSearch
  | internalDocs
  | partnerAPIs
deriving DecidableEq, Repr

/-- `RAGSnippet`: one retrieved unit of knowledge (metadata omitted, see
module docstring). -/
structure RAGSnippet where
  source : RAGSource
  content : String
  confidence : Rat
deriving DecidableEq, Repr

/-- `RAGCitation` from the source. -/
structure RAGCitation where
  source : String
  url : Option String
  title : Option String
deriving DecidableEq, Repr

/-- `RAGResult` from the source; `degraded` and `citations` are optional
fields, hence `Option`. -/
structure RAGResult where
  ok : Bool
  degraded : Option Bool
  snippets : List RAGSnippet
  citations : Option (List RAGCitation)
deriving DecidableEq, Repr

/-- The literal object `ok: false, degraded: true, snippets: []` built at
each fallback site of the source. -/
def emptyDegraded : RAGResult :=
  { ok := false, degraded := some true, snippets := [], citations := none }

/-! ## Drivers -/

/-- A row of the `memories` table as returned by the pgIlike query;
`content` is its textual rendering (the source stringifies non-string
content before use). -/
structure PgRow where
  key : String
  layer : String
  content : String
deriving DecidableEq, Repr

/-- `PgIlikeDriver.search`. `postgresUrl` is `process.env.POSTGRES_URL`;
`dbRows` is the oracle outcome of the SQL query (`Except.error` = the
query rejected). The source has no `catch`: a failing query propagates
to the caller, hence the `.error e => .error e` branch. -/
def PgIlikeDriver.search (postgresUrl : Option String) (query : String)
    (dbRows : Except DbError (List PgRow)) : Except DbError RAGResult :=
  match postgresUrl with
  | none => .ok { ok := false, degraded := some true, snippets := [], citations := none }
  | some _ =>
    match dbRows with
    | .error e => .error e
    | .ok rows =>
      .ok { ok := true, degraded := none, citations := none
            snippets := rows.map fun r =>
              { source := .internalDocs, content := r.content, confidence := (6 : Rat) / 10 } }

/-- A row of the vector-similarity query: `memories` row plus the computed
`embedding <-> query` distance column. -/
structure VecRow where
  key : String
  layer : String
  content : String
  distance : Rat
deriving DecidableEq, Repr

/-- `VectorDbDriver.search`. `embedOutcome` is the oracle outcome of the
`embedText` call, `dbRows` that of the similarity query. The source wraps
both in `try/catch` and returns the empty degraded result on any error. -/
def VectorDbDriver.search (postgresUrl : Option String)
    (embedOutcome : Except DbError (List Rat))
    (dbRows : Except DbError (List VecRow)) : Except DbError RAGResult :=
  match postgresUrl with
  | none => .ok { ok := false, degraded := some true, snippets := [], citations := none }
  | some _ =>
    match embedOutcome with
    | .error _ => .ok { ok := false, degraded := some true, snippets := [], citations := none }
    | .ok _qvec =>
      match dbRows with
      | .error _ => .ok { ok := false, degraded := some true, snippets := [], citations := none }
      | .ok rows =>
        .ok { ok := true, degraded := none, citations := none
              snippets := rows.map fun r =>
                { source := .internalDocs, content := r.content
                  confidence := max 0 (1 - r.distance) } }

/-! ## Circuit breaker -/

/-- `CBState` from the source. -/
inductive CBState
  | CLOSED
  | OPEN
  | HALF_OPEN
deriving DecidableEq, Repr

/-- `CircuitBreaker` instance state plus its two readonly options. -/
structure CircuitBreaker where
  state : CBState
  failureCount : Nat
  threshold : Nat
  cooldownMs : Nat
  nextTryAt : Nat
deriving DecidableEq, Repr

/-- The constructor: `threshold` defaults to 3, `cooldownMs` to 5000;
`state` starts CLOSED, `failureCount` 0, `nextTryAt` 0. -/
def CircuitBreaker.init (threshold cooldownMs : Option Nat) : CircuitBreaker :=
  { state := .CLOSED, failureCount := 0, threshold := threshold.getD 3
    cooldownMs := cooldownMs.getD 5000, nextTryAt := 0 }

/-- `onSuccess`: reset the count and close. -/
def CircuitBreaker.onSuccess (cb : CircuitBreaker) : CircuitBreaker :=
  { cb with failureCount := 0, state := .CLOSED }

/-- `onFailure`: increment; at or above the threshold, open and schedule
the next try `cooldownMs` after the current instant. -/
def CircuitBreaker.onFailure (cb : CircuitBreaker) (now : Nat) : CircuitBreaker :=
  let fc := cb.failureCount + 1
  if cb.threshold ≤ fc then
    { cb with failureCount := fc, state := .OPEN, nextTryAt := now + cb.cooldownMs }
  else
    { cb with failureCount := fc }

/-- `canTry`: when OPEN and the cooldown has elapsed, flip to HALF_OPEN and
allow; otherwise allow iff not OPEN. Returns the answer and the updated
breaker (the source mutates `this.state` in place). -/
def CircuitBreaker.canTry (cb : CircuitBreaker) (now : Nat) : Bool × CircuitBreaker :=
  if cb.state = .OPEN ∧ cb.nextTryAt ≤ now then
    (true, { cb with state := .HALF_OPEN })
  else
    (decide (cb.state ≠ .OPEN), cb)

/-! ## Manager -/

/-- `RAGManager` instance state: the result cache (fingerprint to
`at`/`result` entry, a `Map` in the source, modelled as a lookup
function), the breaker, the active driver name and the TTL. -/
structure RAGManager where
  cache : String → Option (Nat × RAGResult)
  circuitBreaker : CircuitBreaker
  driverName : String
  ttlMs : Nat

/-- The constructor: provider from the option or the environment
(default `pgIlike`), default breaker, `ttlMs` defaulting to 15000. -/
def RAGManager.init (provider : Option String) (ttlMs : Option Nat) : RAGManager :=
  let p := provider.getD "pgIlike"
  { cache := fun _ => none
    circuitBreaker := CircuitBreaker.init none none
    driverName := if p = "vectorDB" then "vectorDB" else "pgIlike"
    ttlMs := ttlMs.getD 15000 }

/-- `RAGManager.key`: the cache fingerprint
`driverName:query:JSON.stringify(hints)`. -/
def RAGManager.key (m : RAGManager) (query hintsJson : String) : String :=
  m.driverName ++ ":" ++ query ++ ":" ++ hintsJson

/-- `const fallback = cached?.result ?? emptyDegraded` followed by the
spread `degraded: true` of the source fallback sites. -/
def fallbackOf (cached : Option (Nat × RAGResult)) : RAGResult :=
  let fb := (cached.map Prod.snd).getD emptyDegraded
  { fb with degraded := some true }

/-- The cache-miss tail of `RAGManager.retrieve`: breaker gate, strategy
invocation (its outcome the oracle `searchOutcome`), breaker/cache
update. The `try/catch` of the source is the `match` on the oracle. -/
def RAGManager.retrieveMiss (m : RAGManager) (cacheKey : String)
    (cached : Option (Nat × RAGResult)) (now : Nat)
    (searchOutcome : Except DbError RAGResult) :
    Except DbError (RAGResult × RAGManager) :=
  let ct := m.circuitBreaker.canTry now
  let m1 : RAGManager := { m with circuitBreaker := ct.2 }
  if ct.1 = false then
    .ok (fallbackOf cached, m1)
  else
    match searchOutcome with
    | .ok result =>
      if result.ok then
        .ok (result, { m1 with
          circuitBreaker := m1.circuitBreaker.onSuccess
          cache := fun k => if k = cacheKey then some (now, result) else m1.cache k })
      else
        .ok (fallbackOf cached, { m1 with circuitBreaker := m1.circuitBreaker.onFailure now })
    | .error _ =>
      .ok (fallbackOf cached, { m1 with circuitBreaker := m1.circuitBreaker.onFailure now })

/-- `RAGManager.retrieve`: fresh cache hit returns the stored result
unchanged; otherwise the cache-miss tail runs. `now` is the single
`Date.now()` instant of the call. The `Except` result type records that
the body could in principle reject; the theorems show it never does. -/
def RAGManager.retrieve (m : RAGManager) (query hintsJson : String) (now : Nat)
    (searchOutcome : Except DbError RAGResult) :
    Except DbError (RAGResult × RAGManager) :=
  let cacheKey := m.key query hintsJson
  match m.cache cacheKey with
  | some c =>
    if now - c.1 < m.ttlMs then
      .ok (c.2, m)
    else
      m.retrieveMiss cacheKey (some c) now searchOutcome
  | none => m.retrieveMiss cacheKey none now searchOutcome

/-- `RAGManager.clearCache`. -/
def RAGManager.clearCache (m : RAGManager) : RAGManager :=
  { m with cache := fun _ => none }

/-! ## Operation traces over a manager -/

/-- One public operation on a `RAGManager`; a `retrieve` op carries its
call instant and the oracle outcome of the strategy call. -/
inductive RMOp
  | retrieve (query hintsJson : String) (now : Nat) (outcome : Except DbError RAGResult)
  | clearCache

/-- Apply one operation to the manager state. `retrieve` never rejects
(proved below), so the `.error` branch is dead; it keeps the state. -/
def RAGManager.applyOp (m : RAGManager) : RMOp → RAGManager
  | .retrieve q h t o =>
    match m.retrieve q h t o with
    | .ok (_, m2) => m2
    | .error _ => m
  | .clearCache => m.clearCache

/-- Run a sequence of operations left to right. -/
def RAGManager.runOps (m : RAGManager) : List RMOp → RAGManager
  | [] => m
  | op :: ops => (m.applyOp op).runOps ops

/-! ## Shared lemmas -/

/-- Cache-miss tail, breaker blocking: fallback, breaker updated by
`canTry` only. -/
theorem retrieveMiss_blocked (m : RAGManager) (ck : String)
    (cached : Option (Nat × RAGResult)) (now : Nat)
    (so : Except DbError RAGResult)
    (hct : (m.circuitBreaker.canTry now).1 = false) :
    m.retrieveMiss ck cached now so =
      Except.ok (fallbackOf cached, { m with circuitBreaker := (m.circuitBreaker.canTry now).2 }) := by
  simp [RAGManager.retrieveMiss, hct]

/-- Cache-miss tail, breaker allowing, successful result: breaker reset,
entry written, result returned unmodified. -/
theorem retrieveMiss_success (m : RAGManager) (ck : String)
    (cached : Option (Nat × RAGResult)) (now : Nat) (r : RAGResult)
    (hct : (m.circuitBreaker.canTry now).1 = true)
    (hr : r.ok = true) :
    m.retrieveMiss ck cached now (Except.ok r) =
      Except.ok (r, { m with
        circuitBreaker := ((m.circuitBreaker.canTry now).2).onSuccess
        cache := fun k => if k = ck then some (now, r) else m.cache k }) := by
  simp [RAGManager.retrieveMiss, hct, hr]

/-- Cache-miss tail, breaker allowing, resolved result with `ok = false`:
breaker notified of failure, fallback returned, no cache write. -/
theorem retrieveMiss_notOk (m : RAGManager) (ck : String)
    (cached : Option (Nat × RAGResult)) (now : Nat) (r : RAGResult)
    (hct : (m.circuitBreaker.canTry now).1 = true)
    (hr : r.ok = false) :
    m.retrieveMiss ck cached now (Except.ok r) =
      Except.ok (fallbackOf cached, { m with
        circuitBreaker := ((m.circuitBreaker.canTry now).2).onFailure now }) := by
  simp [RAGManager.retrieveMiss, hct, hr]

/-- Cache-miss tail, breaker allowing, thrown error: caught, breaker
notified of failure, fallback returned, no cache write. -/
theorem retrieveMiss_error (m : RAGManager) (ck : String)
    (cached : Option (Nat × RAGResult)) (now : Nat) (e : DbError)
    (hct : (m.circuitBreaker.canTry now).1 = true) :
    m.retrieveMiss ck cached now (Except.error e) =
      Except.ok (fallbackOf cached, { m with
        circuitBreaker := ((m.circuitBreaker.canTry now).2).onFailure now }) := by
  simp [RAGManager.retrieveMiss, hct]

/-- The cache-miss tail always resolves (`Except.ok`). -/
theorem retrieveMiss_resolves (m : RAGManager) (ck : String)
    (cached : Option (Nat × RAGResult)) (now : Nat)
    (so : Except DbError RAGResult) :
    ∃ out, m.retrieveMiss ck cached now so = Except.ok out := by
  by_cases hct : (m.circuitBreaker.canTry now).1 = false
  · exact ⟨_, retrieveMiss_blocked m ck cached now so hct⟩
  · rw [Bool.not_eq_false] at hct
    cases so with
    | error e => exact ⟨_, retrieveMiss_error m ck cached now e hct⟩
    | ok r =>
      by_cases hr : r.ok = true
      · exact ⟨_, retrieveMiss_success m ck cached now r hct hr⟩
      · rw [Bool.not_eq_true] at hr
        exact ⟨_, retrieveMiss_notOk m ck cached now r hct hr⟩

/-- `retrieve` always resolves (`Except.ok`). -/
theorem retrieve_resolves (m : RAGManager) (q hj : String) (now : Nat)
    (so : Except DbError RAGResult) :
    ∃ out, m.retrieve q hj now so = Except.ok out := by
  unfold RAGManager.retrieve
  cases hm : m.cache (m.key q hj) with
  | none => simp only [hm]; exact retrieveMiss_resolves m _ none now so
  | some c =>
    simp only [hm]
    split
    · exact ⟨_, rfl⟩
    · exact retrieveMiss_resolves m _ (some c) now so

/-- When `canTry` answers false it leaves the breaker unchanged. -/
theorem canTry_false_eq (cb : CircuitBreaker) (now : Nat)
    (h : (cb.canTry now).1 = false) : (cb.canTry now).2 = cb := by
  by_cases hc : cb.state = .OPEN ∧ cb.nextTryAt ≤ now
  · simp [CircuitBreaker.canTry, hc] at h
  · simp [CircuitBreaker.canTry, hc]

/-- When the breaker blocks the call and no fresh entry exists, `retrieve`
returns the fallback built from the cached entry at the fingerprint and
leaves the manager unchanged. -/
theorem retrieve_blocked (m : RAGManager) (q hj : String) (now : Nat)
    (so : Except DbError RAGResult)
    (hcb : (m.circuitBreaker.canTry now).1 = false)
    (hstale : ∀ c, m.cache (m.key q hj) = some c → m.ttlMs ≤ now - c.1) :
    m.retrieve q hj now so = Except.ok (fallbackOf (m.cache (m.key q hj)), m) := by
  have h2 := canTry_false_eq _ _ hcb
  cases hm : m.cache (m.key q hj) with
  | none =>
    simp only [RAGManager.retrieve, hm]
    rw [retrieveMiss_blocked m _ none now so hcb, h2]
  | some c =>
    have hns : ¬ (now - c.1 < m.ttlMs) := Nat.not_lt.mpr (hstale c hm)
    simp only [RAGManager.retrieve, hm, if_neg hns]
    rw [retrieveMiss_blocked m _ (some c) now so hcb, h2]

/-- Whether a strategy outcome counts as a failure for the gateway: a
resolved result with `ok = false`, or a rejection. -/
def searchFailed : Except DbError RAGResult → Prop
  | .ok r => r.ok = false
  | .error _ => True

/-- A failing strategy call on an uncached fingerprint, allowed by the
breaker: the empty degraded result comes back and only the breaker moves
(`canTry` update then `onFailure`); nothing is written to the cache. -/
theorem retrieve_uncached_failure (m : RAGManager) (q hj : String) (now : Nat)
    (o : Except DbError RAGResult)
    (hnc : m.cache (m.key q hj) = none)
    (hct : (m.circuitBreaker.canTry now).1 = true)
    (hf : searchFailed o) :
    m.retrieve q hj now o =
      Except.ok (emptyDegraded,
        { m with circuitBreaker := ((m.circuitBreaker.canTry now).2).onFailure now }) := by
  simp only [RAGManager.retrieve, hnc]
  cases o with
  | error e => rw [retrieveMiss_error m _ none now e hct]; rfl
  | ok r =>
    have hr : r.ok = false := hf
    rw [retrieveMiss_notOk m _ none now r hct hr]; rfl

/-! ## Claims -/

/-- C1: for every query string, hints map, call instant and strategy
behaviour (a resolved result or a thrown error), `RAGManager.retrieve`
resolves to a RetrievalResult value and never rejects. -/
theorem retrieve_never_rejects (m : RAGManager) (query hintsJson : String)
    (now : Nat) (searchOutcome : Except DbError RAGResult) :
    ∃ r m2, m.retrieve query hintsJson now searchOutcome = Except.ok (r, m2) := by
  obtain ⟨⟨r, m2⟩, hout⟩ := retrieve_resolves m query hintsJson now searchOutcome
  exact ⟨r, m2, hout⟩

/-- C2: a cache entry younger than the TTL is returned verbatim, for any
strategy behaviour, and the manager (cache and breaker) is untouched. -/
theorem retrieve_fresh_cache_hit (m : RAGManager) (query hintsJson : String)
    (now : Nat) (searchOutcome : Except DbError RAGResult)
    (c : Nat × RAGResult)
    (hc : m.cache (m.key query hintsJson) = some c)
    (hfresh : now - c.1 < m.ttlMs) :
    m.retrieve query hintsJson now searchOutcome = Except.ok (c.2, m) := by
  unfold RAGManager.retrieve
  simp [hc, hfresh]

/-- A concrete cached result used by witnesses. -/
def sampleCachedResult : RAGResult :=
  { ok := true, degraded := none
    snippets := [{ source := .internalDocs, content := "dark theme preference"
                   confidence := (6 : Rat) / 10 }]
    citations := none }

/-- A concrete manager holding `sampleCachedResult` at fingerprint
`pgIlike:theme:hints`, stored at instant 1000. -/
def sampleManager : RAGManager :=
  { cache := fun k => if k = "pgIlike:theme:hints" then some (1000, sampleCachedResult) else none
    circuitBreaker := CircuitBreaker.init none none
    driverName := "pgIlike"
    ttlMs := 15000 }

/-- C2 witness: at instant 2000 the entry stored at 1000 is fresh and is
returned verbatim although the strategy would have thrown. -/
theorem retrieve_fresh_cache_hit_witness :
    sampleManager.retrieve "theme" "hints" 2000 (Except.error "store down") =
      Except.ok (sampleCachedResult, sampleManager) :=
  retrieve_fresh_cache_hit sampleManager "theme" "hints" 2000 (Except.error "store down")
    (1000, sampleCachedResult) rfl (by decide)

/-- C1 witness: a concrete call with a throwing strategy still resolves. -/
theorem retrieve_never_rejects_witness :
    ∃ r m2,
      (RAGManager.init none none).retrieve "theme" "hints" 0 (Except.error "down") =
        Except.ok (r, m2) :=
  retrieve_never_rejects (RAGManager.init none none) "theme" "hints" 0 (Except.error "down")

/-- C3: when the breaker disallows the call and the fingerprint has no
fresh entry, `retrieve` returns the cached entry with `degraded` forced
true when one exists (however stale), and the empty degraded result when
none exists; the manager is unchanged (in particular the strategy was not
invoked: the answer does not depend on `searchOutcome`). -/
theorem retrieve_open_breaker_fallback (m : RAGManager) (query hintsJson : String)
    (now : Nat) (searchOutcome : Except DbError RAGResult)
    (hcb : (m.circuitBreaker.canTry now).1 = false)
    (hstale : ∀ c, m.cache (m.key query hintsJson) = some c → m.ttlMs ≤ now - c.1) :
    m.retrieve query hintsJson now searchOutcome =
      Except.ok ((match m.cache (m.key query hintsJson) with
        | some c => { c.2 with degraded := some true }
        | none => emptyDegraded), m) := by
  rw [retrieve_blocked m query hintsJson now searchOutcome hcb hstale]
  cases hm : m.cache (m.key query hintsJson) with
  | none => rfl
  | some c => rfl

/-- A concrete manager whose breaker is OPEN until instant 99999, holding
a (stale at instant 20000) entry for `pgIlike:theme:hints` stored at 0. -/
def openManager : RAGManager :=
  { cache := fun k => if k = "pgIlike:theme:hints" then some (0, sampleCachedResult) else none
    circuitBreaker :=
      { state := .OPEN, failureCount := 3, threshold := 3, cooldownMs := 5000, nextTryAt := 99999 }
    driverName := "pgIlike"
    ttlMs := 15000 }

/-- C3 witness: the breaker is OPEN and the only entry is stale; the stale
result comes back with `degraded` forced true and the manager unchanged. -/
theorem retrieve_open_breaker_fallback_witness :
    openManager.retrieve "theme" "hints" 20000 (Except.error "store down") =
      Except.ok ((match openManager.cache (openManager.key "theme" "hints") with
        | some c => { c.2 with degraded := some true }
        | none => emptyDegraded), openManager) :=
  retrieve_open_breaker_fallback openManager "theme" "hints" 20000 (Except.error "store down")
    (by decide)
    (by
      intro c hc
      have hc2 : some ((0 : Nat), sampleCachedResult) = some c := hc
      have hc3 : ((0 : Nat), sampleCachedResult) = c := by injection hc2
      rw [← hc3]
      decide)

/-- The only way the cache-miss tail touches the cache: either not at all,
or one entry written from a resolved result with `ok = true`. -/
theorem retrieveMiss_cache_write (m : RAGManager) (ck : String)
    (cached : Option (Nat × RAGResult)) (now : Nat)
    (so : Except DbError RAGResult) (r : RAGResult) (m2 : RAGManager)
    (hout : m.retrieveMiss ck cached now so = Except.ok (r, m2)) :
    m2.cache = m.cache ∨
    ∃ res : RAGResult, so = Except.ok res ∧ res.ok = true ∧
      m2.cache = fun k => if k = ck then some (now, res) else m.cache k := by
  by_cases hct : (m.circuitBreaker.canTry now).1 = false
  · rw [retrieveMiss_blocked m ck cached now so hct] at hout
    injection hout with h
    injection h with h1 h2
    left; rw [← h2]
  · rw [Bool.not_eq_false] at hct
    cases so with
    | error e =>
      rw [retrieveMiss_error m ck cached now e hct] at hout
      injection hout with h
      injection h with h1 h2
      left; rw [← h2]
    | ok res =>
      by_cases hres : res.ok = true
      · rw [retrieveMiss_success m ck cached now res hct hres] at hout
        injection hout with h
        injection h with h1 h2
        right
        exact ⟨res, rfl, hres, by rw [← h2]⟩
      · rw [Bool.not_eq_true] at hres
        rw [retrieveMiss_notOk m ck cached now res hct hres] at hout
        injection hout with h
        injection h with h1 h2
        left; rw [← h2]

/-- Same statement lifted to `retrieve`: a cache hit changes nothing, a
miss behaves as `retrieveMiss_cache_write`. -/
theorem retrieve_cache_write (m : RAGManager) (q hj : String) (now : Nat)
    (so : Except DbError RAGResult) (r : RAGResult) (m2 : RAGManager)
    (hout : m.retrieve q hj now so = Except.ok (r, m2)) :
    m2.cache = m.cache ∨
    ∃ res : RAGResult, so = Except.ok res ∧ res.ok = true ∧
      m2.cache = fun k => if k = m.key q hj then some (now, res) else m.cache k := by
  cases hm : m.cache (m.key q hj) with
  | some c =>
    by_cases hfresh : now - c.1 < m.ttlMs
    · simp only [RAGManager.retrieve, hm, if_pos hfresh] at hout
      injection hout with h
      injection h with h1 h2
      left; rw [← h2]
    · simp only [RAGManager.retrieve, hm, if_neg hfresh] at hout
      exact retrieveMiss_cache_write m _ (some c) now so r m2 hout
  | none =>
    simp only [RAGManager.retrieve, hm] at hout
    exact retrieveMiss_cache_write m _ none now so r m2 hout

/-- The cache invariant of claim C4: every entry holds `ok = true`. -/
def cacheAllOk (m : RAGManager) : Prop :=
  ∀ k t r, m.cache k = some (t, r) → r.ok = true

/-- One operation preserves the cache invariant. -/
theorem applyOp_cacheAllOk (m : RAGManager) (op : RMOp) (hm : cacheAllOk m) :
    cacheAllOk (m.applyOp op) := by
  cases op with
  | clearCache =>
    intro k t r h
    simp [RAGManager.applyOp, RAGManager.clearCache] at h
  | retrieve q hj now so =>
    obtain ⟨⟨res, m2⟩, hout⟩ := retrieve_resolves m q hj now so
    simp only [RAGManager.applyOp, hout]
    rcases retrieve_cache_write m q hj now so res m2 hout with hsame | ⟨res2, hso, hok, hcache⟩
    · intro k t r h; rw [hsame] at h; exact hm k t r h
    · intro k t r h
      simp only [hcache] at h
      by_cases hk : k = m.key q hj
      · rw [if_pos hk] at h
        have h2 := Option.some.inj h
        rw [Prod.mk.injEq] at h2
        exact h2.2 ▸ hok
      · rw [if_neg hk] at h; exact hm k t r h

/-- A whole trace preserves the cache invariant. -/
theorem runOps_cacheAllOk (ops : List RMOp) (m : RAGManager) (hm : cacheAllOk m) :
    cacheAllOk (m.runOps ops) := by
  induction ops generalizing m with
  | nil => exact hm
  | cons op ops ih => exact ih _ (applyOp_cacheAllOk m op hm)

/-- C4: starting from a freshly constructed manager (empty cache), after
any sequence of retrieve and clearCache operations, every entry of the
result cache holds a RetrievalResult with `ok = true`; a strategy failure
or a fallback result is never written to the cache. -/
theorem cache_holds_only_ok_results (provider : Option String) (ttl : Option Nat)
    (ops : List RMOp) :
    cacheAllOk ((RAGManager.init provider ttl).runOps ops) :=
  runOps_cacheAllOk ops _ (by intro k t r h; simp [RAGManager.init] at h)

/-- C4 witness: a concrete trace — one successful retrieve (whose result
is written) and one failing one (which is not) — keeps every entry `ok`. -/
theorem cache_holds_only_ok_results_witness :
    cacheAllOk ((RAGManager.init none none).runOps
      [.retrieve "q" "h" 0
         (Except.ok { ok := true, degraded := none, snippets := [], citations := none }),
       .retrieve "q2" "h" 1 (Except.error "down")]) :=
  cache_holds_only_ok_results none none
    [.retrieve "q" "h" 0
       (Except.ok { ok := true, degraded := none, snippets := [], citations := none }),
     .retrieve "q2" "h" 1 (Except.error "down")]

/-- `canTry` on a CLOSED breaker: allowed, breaker unchanged. -/
theorem canTry_closed (cb : CircuitBreaker) (now : Nat) (h : cb.state = .CLOSED) :
    cb.canTry now = (true, cb) := by
  simp [CircuitBreaker.canTry, h]

/-- `canTry` on an OPEN breaker before `nextTryAt`: blocked, breaker
unchanged. -/
theorem canTry_open_early (cb : CircuitBreaker) (now : Nat) (h : cb.state = .OPEN)
    (ht : now < cb.nextTryAt) :
    cb.canTry now = (false, cb) := by
  simp [CircuitBreaker.canTry, h, Nat.not_le_of_lt ht]

/-- C5: from a fresh manager (default threshold 3, cooldown 5000), three
consecutive failing retrieves on uncached queries leave the breaker OPEN
with `nextTryAt` = the third failure instant + 5000; a fourth retrieve on
an uncached query before that instant returns the empty degraded result
for every strategy behaviour (the strategy is not invoked) and changes
nothing. -/
theorem breaker_opens_after_threshold_failures
    (prov : Option String) (ttl : Option Nat)
    (q1 h1 q2 h2 q3 h3 q4 h4 : String) (t1 t2 t3 t4 : Nat)
    (o1 o2 o3 o4 : Except DbError RAGResult)
    (hf1 : searchFailed o1) (hf2 : searchFailed o2) (hf3 : searchFailed o3)
    (ht4 : t4 < t3 + 5000) :
    ∃ m3 : RAGManager,
      (RAGManager.init prov ttl).runOps
        [.retrieve q1 h1 t1 o1, .retrieve q2 h2 t2 o2, .retrieve q3 h3 t3 o3] = m3 ∧
      m3.circuitBreaker.state = .OPEN ∧
      m3.circuitBreaker.nextTryAt = t3 + 5000 ∧
      m3.retrieve q4 h4 t4 o4 = Except.ok (emptyDegraded, m3) := by
  refine ⟨{ RAGManager.init prov ttl with
            circuitBreaker := ⟨.OPEN, 3, 3, 5000, t3 + 5000⟩ }, ?_, rfl, rfl, ?_⟩
  · have hs1 : (RAGManager.init prov ttl).applyOp (.retrieve q1 h1 t1 o1) =
        { RAGManager.init prov ttl with circuitBreaker := ⟨.CLOSED, 1, 3, 5000, 0⟩ } := by
      simp only [RAGManager.applyOp,
        retrieve_uncached_failure (RAGManager.init prov ttl) q1 h1 t1 o1 rfl rfl hf1]
      rfl
    have hs2 : ({ RAGManager.init prov ttl with
          circuitBreaker := ⟨.CLOSED, 1, 3, 5000, 0⟩ } : RAGManager).applyOp
            (.retrieve q2 h2 t2 o2) =
        { RAGManager.init prov ttl with circuitBreaker := ⟨.CLOSED, 2, 3, 5000, 0⟩ } := by
      simp only [RAGManager.applyOp,
        retrieve_uncached_failure
          ({ RAGManager.init prov ttl with
             circuitBreaker := ⟨.CLOSED, 1, 3, 5000, 0⟩ } : RAGManager)
          q2 h2 t2 o2 rfl rfl hf2]
      rfl
    have hs3 : ({ RAGManager.init prov ttl with
          circuitBreaker := ⟨.CLOSED, 2, 3, 5000, 0⟩ } : RAGManager).applyOp
            (.retrieve q3 h3 t3 o3) =
        { RAGManager.init prov ttl with circuitBreaker := ⟨.OPEN, 3, 3, 5000, t3 + 5000⟩ } := by
      simp only [RAGManager.applyOp,
        retrieve_uncached_failure
          ({ RAGManager.init prov ttl with
             circuitBreaker := ⟨.CLOSED, 2, 3, 5000, 0⟩ } : RAGManager)
          q3 h3 t3 o3 rfl rfl hf3]
      rfl
    simp only [RAGManager.runOps, hs1, hs2, hs3]
  · have hcb : ((⟨.OPEN, 3, 3, 5000, t3 + 5000⟩ : CircuitBreaker).canTry t4) =
        (false, ⟨.OPEN, 3, 3, 5000, t3 + 5000⟩) :=
      canTry_open_early _ t4 rfl ht4
    rw [retrieve_blocked _ q4 h4 t4 o4 (by rw [hcb]) ?hstale]
    case hstale => intro c hc; exact Option.noConfusion hc
    rfl

/-- C5 witness: three thrown errors at instants 0, 1, 2 open the breaker
until 5002; a fourth call at instant 3 is blocked even though its oracle
outcome would have been a success. -/
theorem breaker_opens_after_threshold_failures_witness :
    ∃ m3 : RAGManager,
      (RAGManager.init none none).runOps
        [.retrieve "q1" "h" 0 (Except.error "down"),
         .retrieve "q2" "h" 1 (Except.error "down"),
         .retrieve "q3" "h" 2 (Except.error "down")] = m3 ∧
      m3.circuitBreaker.state = .OPEN ∧
      m3.circuitBreaker.nextTryAt = 2 + 5000 ∧
      m3.retrieve "q4" "h" 3
          (Except.ok { ok := true, degraded := none, snippets := [], citations := none }) =
        Except.ok (emptyDegraded, m3) :=
  breaker_opens_after_threshold_failures none none "q1" "h" "q2" "h" "q3" "h" "q4" "h"
    0 1 2 3 (Except.error "down") (Except.error "down") (Except.error "down")
    (Except.ok { ok := true, degraded := none, snippets := [], citations := none })
    True.intro True.intro True.intro (by decide)

/-- An OPEN breaker whose cooldown window ends at instant 100, used to
refute the single-probe reading of claim C6. -/
def cbOpenElapsed : CircuitBreaker :=
  { state := .OPEN, failureCount := 3, threshold := 3, cooldownMs := 5000, nextTryAt := 100 }

/-- C6 counterexample: at instant 100 the first `canTry` flips the breaker
to HALF_OPEN and answers true, but — contrary to the claim that no further
`canTry` answers true before an outcome is recorded — a second `canTry`
with no intervening `onSuccess`/`onFailure` answers true as well. -/
theorem canTry_second_check_counterexample :
    (cbOpenElapsed.canTry 100).1 = true ∧
    ((cbOpenElapsed.canTry 100).2).state = .HALF_OPEN ∧
    ¬ ((((cbOpenElapsed.canTry 100).2).canTry 100).1 = false) := by decide

/-- C6 amended: when the breaker is OPEN and the instant has reached
`nextTryAt`, `canTry` flips the state to HALF_OPEN and answers true; while
the state stays HALF_OPEN (that is, until `onSuccess` or `onFailure`
records the probe outcome and moves the state), every further `canTry`
also answers true and leaves the breaker unchanged. -/
theorem canTry_open_elapsed_half_open (cb : CircuitBreaker) (now : Nat)
    (hs : cb.state = .OPEN) (ht : cb.nextTryAt ≤ now) :
    cb.canTry now = (true, { cb with state := .HALF_OPEN }) ∧
    ∀ now2 : Nat,
      ({ cb with state := .HALF_OPEN } : CircuitBreaker).canTry now2 =
        (true, { cb with state := .HALF_OPEN }) := by
  constructor
  · simp [CircuitBreaker.canTry, hs, ht]
  · intro now2
    simp [CircuitBreaker.canTry]

/-- C6 amended witness: the breaker of the counterexample, at instant 100. -/
theorem canTry_open_elapsed_half_open_witness :
    cbOpenElapsed.canTry 100 = (true, { cbOpenElapsed with state := .HALF_OPEN }) ∧
    ∀ now2 : Nat,
      ({ cbOpenElapsed with state := .HALF_OPEN } : CircuitBreaker).canTry now2 =
        (true, { cbOpenElapsed with state := .HALF_OPEN }) :=
  canTry_open_elapsed_half_open cbOpenElapsed 100 rfl (by decide)

/-- C7: `VectorDbDriver.search` always resolves, and on any error from the
embedding call or the similarity query it resolves with `ok = false` and
no snippets instead of propagating the error. -/
theorem vector_search_fails_closed (postgresUrl : Option String)
    (embedOutcome : Except DbError (List Rat))
    (dbRows : Except DbError (List VecRow)) :
    (∃ r, VectorDbDriver.search postgresUrl embedOutcome dbRows = Except.ok r) ∧
    ((∃ e, embedOutcome = Except.error e) ∨ (∃ e, dbRows = Except.error e) →
      VectorDbDriver.search postgresUrl embedOutcome dbRows =
        Except.ok { ok := false, degraded := some true, snippets := [], citations := none }) := by
  cases postgresUrl <;> cases embedOutcome <;> cases dbRows <;>
    simp [VectorDbDriver.search]

/-- C7 witness: a thrown embedding error is absorbed into the empty failed
result even though the similarity query would have succeeded. -/
theorem vector_search_fails_closed_witness :
    VectorDbDriver.search (some "postgres://db") (Except.error "embed failed")
        (Except.ok []) =
      Except.ok { ok := false, degraded := some true, snippets := [], citations := none } :=
  (vector_search_fails_closed (some "postgres://db") (Except.error "embed failed")
      (Except.ok [])).2 (Or.inl ⟨"embed failed", rfl⟩)

/-- C8: on a successful vector search, the snippets correspond pairwise to
the returned rows; each snippet confidence is `max 0 (1 - distance)` of
its row, and lies in `[0, 1]` given that the store distances (Euclidean
norms computed by the vector extension) are nonnegative. -/
theorem vector_snippet_confidence (url : String) (qvec : List Rat) (rows : List VecRow)
    (hd : ∀ r ∈ rows, 0 ≤ r.distance) :
    ∃ res, VectorDbDriver.search (some url) (Except.ok qvec) (Except.ok rows) =
        Except.ok res ∧
      List.Forall₂ (fun (r : VecRow) (s : RAGSnippet) =>
        s.confidence = max 0 (1 - r.distance) ∧ 0 ≤ s.confidence ∧ s.confidence ≤ 1)
        rows res.snippets := by
  refine ⟨_, rfl, ?_⟩
  dsimp only
  rw [List.forall₂_map_right_iff, List.forall₂_same]
  intro r hr
  refine ⟨rfl, le_max_left 0 _, max_le (by norm_num) ?_⟩
  have h0 := hd r hr
  linarith

/-- C8 witness: one row at distance 1/2 yields confidence 1/2. -/
theorem vector_snippet_confidence_witness :
    ∃ res, VectorDbDriver.search (some "postgres://db") (Except.ok [])
        (Except.ok [{ key := "k1", layer := "l", content := "c", distance := (1 : Rat) / 2 }]) =
        Except.ok res ∧
      List.Forall₂ (fun (r : VecRow) (s : RAGSnippet) =>
        s.confidence = max 0 (1 - r.distance) ∧ 0 ≤ s.confidence ∧ s.confidence ≤ 1)
        [{ key := "k1", layer := "l", content := "c", distance := (1 : Rat) / 2 }] res.snippets :=
  vector_snippet_confidence "postgres://db" []
    [{ key := "k1", layer := "l", content := "c", distance := (1 : Rat) / 2 }]
    (by intro r hr; rw [List.mem_singleton] at hr; subst hr; norm_num)

/-- C9 counterexample: with the connection string configured, a failing
store query makes `PgIlikeDriver.search` reject with the underlying error
— it does not resolve with `ok = false` as the claim states. -/
theorem pg_search_throws_counterexample :
    PgIlikeDriver.search (some "postgres://db") "theme" (Except.error "connection refused") =
      Except.error "connection refused" ∧
    ∀ r : RAGResult,
      PgIlikeDriver.search (some "postgres://db") "theme" (Except.error "connection refused") ≠
        Except.ok r := by
  refine ⟨rfl, ?_⟩
  intro r h
  exact Except.noConfusion h

/-- C9 amended: the literal strategy resolves with `ok = false` when the
connection configuration is missing, for every query and store behaviour;
when a connection string is configured and the store query rejects, the
error propagates unchanged to the caller (the gateway catches it there). -/
theorem pg_search_unavailable (query : String) (dbRows : Except DbError (List PgRow))
    (url : String) (e : DbError) :
    PgIlikeDriver.search none query dbRows =
      Except.ok { ok := false, degraded := some true, snippets := [], citations := none } ∧
    PgIlikeDriver.search (some url) query (Except.error e) = Except.error e :=
  ⟨rfl, rfl⟩

/-! ## Breaker operation traces (claim C10) -/

/-- One call on the breaker object. -/
inductive CBOp
  | onSuccess
  | onFailure (now : Nat)
  | canTry (now : Nat)

/-- Apply one breaker call to the breaker state (`canTry` for its state
effect). -/
def CircuitBreaker.applyCB (cb : CircuitBreaker) : CBOp → CircuitBreaker
  | .onSuccess => cb.onSuccess
  | .onFailure t => cb.onFailure t
  | .canTry t => (cb.canTry t).2

/-- Run a sequence of breaker calls left to right. -/
def CircuitBreaker.runCB (cb : CircuitBreaker) : List CBOp → CircuitBreaker
  | [] => cb
  | op :: ops => (cb.applyCB op).runCB ops

/-- The breaker invariant of claim C10: away from CLOSED, the failure
count has reached the threshold. -/
def cbInv (cb : CircuitBreaker) : Prop :=
  (cb.state = .OPEN ∨ cb.state = .HALF_OPEN) → cb.threshold ≤ cb.failureCount

/-- A failure on a breaker already at or above its threshold re-opens it
and schedules a fresh next try. -/
theorem onFailure_reopens (cb : CircuitBreaker) (now : Nat)
    (h : cb.threshold ≤ cb.failureCount) :
    (cb.onFailure now).state = .OPEN ∧
    (cb.onFailure now).nextTryAt = now + cb.cooldownMs := by
  have h2 : cb.threshold ≤ cb.failureCount + 1 := le_trans h (Nat.le_succ _)
  simp [CircuitBreaker.onFailure, h2]

/-- Each breaker call preserves the invariant. -/
theorem applyCB_inv (cb : CircuitBreaker) (op : CBOp) (h : cbInv cb) :
    cbInv (cb.applyCB op) := by
  cases op with
  | onSuccess =>
    intro hs
    rcases hs with hs | hs <;>
      simp [CircuitBreaker.applyCB, CircuitBreaker.onSuccess] at hs
  | onFailure t =>
    by_cases hth : cb.threshold ≤ cb.failureCount + 1
    · intro hs
      simp only [CircuitBreaker.applyCB, CircuitBreaker.onFailure, if_pos hth]
      exact hth
    · intro hs
      simp only [CircuitBreaker.applyCB, CircuitBreaker.onFailure, if_neg hth] at hs ⊢
      exact le_trans (h hs) (Nat.le_succ _)
  | canTry t =>
    by_cases hc : cb.state = .OPEN ∧ cb.nextTryAt ≤ t
    · intro hs
      simp only [CircuitBreaker.applyCB, CircuitBreaker.canTry, if_pos hc] at hs ⊢
      exact h (Or.inl hc.1)
    · intro hs
      simp only [CircuitBreaker.applyCB, CircuitBreaker.canTry, if_neg hc] at hs ⊢
      exact h hs

/-- A whole call trace preserves the invariant. -/
theorem runCB_inv (ops : List CBOp) (cb : CircuitBreaker) (h : cbInv cb) :
    cbInv (cb.runCB ops) := by
  induction ops generalizing cb with
  | nil => exact h
  | cons op ops ih => exact ih _ (applyCB_inv cb op h)

/-- C10: in every breaker state reachable from the initial CLOSED state by
any call sequence, OPEN or HALF_OPEN implies the failure count has reached
the threshold; consequently a single failure recorded in HALF_OPEN
immediately re-opens the breaker with a fresh `nextTryAt`. -/
theorem breaker_threshold_invariant (th cd : Nat) (ops : List CBOp) (now : Nat) :
    cbInv ((CircuitBreaker.init (some th) (some cd)).runCB ops) ∧
    (((CircuitBreaker.init (some th) (some cd)).runCB ops).state = .HALF_OPEN →
      ((((CircuitBreaker.init (some th) (some cd)).runCB ops).onFailure now).state = .OPEN ∧
       (((CircuitBreaker.init (some th) (some cd)).runCB ops).onFailure now).nextTryAt =
         now + ((CircuitBreaker.init (some th) (some cd)).runCB ops).cooldownMs)) := by
  have hinv : cbInv ((CircuitBreaker.init (some th) (some cd)).runCB ops) :=
    runCB_inv ops _ (by intro hs; rcases hs with hs | hs <;> simp [CircuitBreaker.init] at hs)
  refine ⟨hinv, fun hs => onFailure_reopens _ now (hinv (Or.inr hs))⟩

/-- C10 witness: threshold 3, cooldown 5000; three failures then an
elapsed `canTry` reach HALF_OPEN, and one more failure re-opens with
`nextTryAt` = 7000 + 5000. -/
theorem breaker_threshold_invariant_witness :
    ((CircuitBreaker.init (some 3) (some 5000)).runCB
        [.onFailure 10, .onFailure 20, .onFailure 30, .canTry 6000]).state = .HALF_OPEN ∧
    (((CircuitBreaker.init (some 3) (some 5000)).runCB
        [.onFailure 10, .onFailure 20, .onFailure 30, .canTry 6000]).onFailure 7000).state =
      .OPEN ∧
    (((CircuitBreaker.init (some 3) (some 5000)).runCB
        [.onFailure 10, .onFailure 20, .onFailure 30, .canTry 6000]).onFailure 7000).nextTryAt =
      7000 + 5000 :=
  ⟨by decide,
   ((breaker_threshold_invariant 3 5000
      [.onFailure 10, .onFailure 20, .onFailure 30, .canTry 6000] 7000).2 (by decide)).1,
   ((breaker_threshold_invariant 3 5000
      [.onFailure 10, .onFailure 20, .onFailure 30, .canTry 6000] 7000).2 (by decide)).2⟩

end MiniMaxi
